import Mathlib

/-!
Verification of the Provone remote-sensing image-captioning pipeline.

The development shallowly embeds the parts of `src/models.py` and `src/eval.py`
that the checked properties speak about:

* the triplet-selection phase of `FinalModel.forward` (sigmoid activations,
  reshape into per-class 2-way blocks, argmax, threshold, placeholder triplet);
* the input-shape assertions of `TripletClassifier.forward` and
  `MultiHeadClassifier.forward`;
* the decoder construction and dispatch of `CaptionGenerator`,
  `AugmentedCaptionGenerator` and `FinalModel`, together with the two fusion
  policies (weighted elementwise sum, concatenation);
* the vocabulary inversion `idx2vocab = \x7bv: k for k, v in vocab2idx.items()\x7d`;
* the `_loss` methods (per-position cross-entropy averaged over batch and
  positions), with float arithmetic modelled over the reals;
* the result dictionaries built by `eval_captions` and `eval_pipeline`.

Scalar activations that the code only ever compares (sigmoid outputs, which lie
in `(0,1)`) are modelled as rationals so that concrete instances evaluate by
`decide`; the real-valued cross-entropy is modelled over `ℝ` with `Real.exp`
and `Real.log`.  Functions defined in `gnn.py` or `dataset.py` (which are not
part of the sources at hand) are modelled from the specification and say so in
their doc comments.
-/

/-! ### Triplet selection in `FinalModel.forward` (models.py 233-251) -/

/-- models.py 239: `triplets.reshape((B, D, 2))` applied to one row of the flat
score matrix: a row of width `2*D` becomes `D` two-way blocks.  The widths
produced by `MultiHeadClassifier` are always even (`2 * dict_size`). -/
def reshapePairs : List ℚ → List (ℚ × ℚ)
  | a :: b :: rest => (a, b) :: reshapePairs rest
  | _ => []

/-- models.py 241: `torch.argmax(logits).item()` on one 2-way block; torch
returns the index of the first maximal entry, so a tie yields index 0. -/
def argmax2 (p : ℚ × ℚ) : ℕ :=
  if p.1 < p.2 then 1 else 0

/-- models.py 244: `threshold = 0.5`. -/
def threshold : ℚ := 1 / 2

/-- models.py 235-245 from the sigmoid activations onwards: the input is the
sigmoid-activated flat score matrix (one row of width `2*D` per image), the
output is, per image, the list `indeces` of candidate-class indices whose
entry `d` (the argmax of the class's 2-way block) satisfies `d >= threshold`. -/
def FinalModel.indeces (sig : List (List ℚ)) : List (List ℕ) :=
  let triplets := sig.map reshapePairs
  let decisions := triplets.map (fun img => img.map argmax2)
  decisions.map (fun s => (s.enum.filter (fun p => threshold ≤ (p.2 : ℚ))).map Prod.fst)

/-- models.py 251: the proxy triplet appended when a sample has no predicted
triplet (a Python string rendering of the tuple `('There', 'is', 'no triplet')`). -/
def placeholderTriplet : String := "('There', 'is', 'no triplet')"

/-- models.py 247-251: per image, the selected indices are decoded through
`idx2tripl` into triplet strings, and a sample whose list came out empty gets
the placeholder triplet appended in place. -/
def FinalModel.tripletLists (idx2tripl : ℕ → String) (sig : List (List ℚ)) :
    List (List String) :=
  (FinalModel.indeces sig).map (fun s =>
    let t := s.map idx2tripl
    if t = [] then t ++ [placeholderTriplet] else t)

/-- Formalisation of the claim's selection rule (spec 4.3): a candidate class is
selected iff its sigmoid-activated score meets the fixed threshold 0.5, the
score of a 2-way block being its positive component. -/
def specSelectedClasses (sig : List (List ℚ)) : List (List ℕ) :=
  (sig.map reshapePairs).map (fun img =>
    (img.enum.filter (fun p => threshold ≤ p.2.2)).map Prod.fst)

/-! ### Input-shape assertions (models.py 33-40 and 178-185) -/

/-- A 4-d image tensor shape `(batch_size, channels, height, width)`;
`shape[2]` is `height`, `shape[3]` is `width`. -/
structure Shape4 where
  batch : ℕ
  channels : ℕ
  height : ℕ
  width : ℕ

/-- models.py 14-17: the configuration of `TripletClassifier` relevant to its
forward contract. -/
structure TripletClassifier where
  input_size : ℕ
  num_classes : ℕ

/-- models.py 33-40: `assert x.shape[2]==self.input_size` then
`assert x.shape[3]==self.input_size`; when both hold the resnet backbone with
the replaced `fc` head runs, producing a `(batch_size, num_classes)` output
(the backbone itself is an external collaborator, abstracted to its shape). -/
def TripletClassifier.forward (m : TripletClassifier) (x : Shape4) :
    Except String (ℕ × ℕ) :=
  if x.height = m.input_size then
    if x.width = m.input_size then .ok (x.batch, m.num_classes)
    else .error "AssertionError"
  else .error "AssertionError"

/-- models.py 165-172: the configuration of `MultiHeadClassifier`; its head is
a `MultiHead` of `dict_size` binary classifiers `Linear(2048, 2)`. -/
structure MultiHeadClassifier where
  input_size : ℕ
  dict_size : ℕ

/-- models.py 178-185: `assert img.shape[2]==self.input_size` then
`assert img.shape[3]==self.input_size`; when both hold the backbone runs and
the `MultiHead` head concatenates `dict_size` 2-way outputs along dim 1
(models.py 156-160), giving a `(batch_size, 2*dict_size)` output. -/
def MultiHeadClassifier.forward (m : MultiHeadClassifier) (img : Shape4) :
    Except String (ℕ × ℕ) :=
  if img.height = m.input_size then
    if img.width = m.input_size then .ok (img.batch, 2 * m.dict_size)
    else .error "AssertionError"
  else .error "AssertionError"

/-! ### Decoder construction and fusion (models.py 55-78, 109-133, 220-265) -/

/-- The decoder objects built in the three `__init__` methods.
`nn.Linear(i, o)` carries its input and output features; `LSTMDecoder` and
`decoderRNN` are defined in `gnn.py`, which is not among the sources at hand,
so their interface is modelled from the spec (4.4/4.5): their first
constructor argument `feats_dim` is the width of the fused feature vector the
decoder's first layer consumes — "The policy in use determines the expected
input width of the Sequence Decoder's first layer — a configuration-time
contract". -/
inductive Decoder where
  | linearList (in_features out_features count : ℕ)
  | lstmDecoder (feats_dim max_seq_len : ℕ)
  | rnnDecoder (in_features vocab_size hidden layers : ℕ)
deriving DecidableEq

/-- The input width the decoder's first layer expects: for the `ModuleList` of
`nn.Linear(in_features, _)` it is `in_features`; for the gnn.py decoders it is
modelled from the spec as the `feats_dim` constructor argument. -/
def Decoder.expectedInputWidth : Decoder → ℕ
  | .linearList w _ _ => w
  | .lstmDecoder w _ => w
  | .rnnDecoder w _ _ _ => w

/-- models.py 55-67 (`CaptionGenerator.__init__`): the fields the decoder
dispatch depends on.  Python only creates the attribute `self.decoder` inside
one of the three `if` branches, so a state built with an unrecognized
`decoder_type` has no decoder: the attribute is modelled as an `Option`. -/
structure CaptionGenerator where
  decoder_type : String
  decoder : Option Decoder

/-- models.py 55-67: `CaptionGenerator.__init__` body.  The constructor always
completes (there is no validation of the `decoder` string); the three
sequential `if` statements test the mutually exclusive strings `'linear'`,
`'lstm'`, `'rnn'`, and for any other string none of them assigns
`self.decoder`. -/
def CaptionGenerator.init (feats_dim max_seq_len vocab_size : ℕ)
    (decoder : String) : CaptionGenerator :=
  { decoder_type := decoder
    decoder :=
      if decoder = "linear" then
        some (.linearList feats_dim vocab_size max_seq_len)
      else if decoder = "lstm" then
        some (.lstmDecoder feats_dim max_seq_len)
      else if decoder = "rnn" then
        some (.rnnDecoder feats_dim vocab_size feats_dim 3)
      else none }

/-- models.py 69-78: the decoder dispatch of `CaptionGenerator.forward`.
Python binds the local `decoded_out` only inside the branch whose
`decoder_type` matches; with any other `decoder_type` the function reaches
`return decoded_out` with the local never bound and raises
`UnboundLocalError`.  The decoded output itself is abstracted to the decoder
object that produced it; a branch taken while `self.decoder` was never
assigned raises `AttributeError`. -/
def CaptionGenerator.forwardDispatch (m : CaptionGenerator) :
    Except String Decoder :=
  if m.decoder_type = "linear" then
    match m.decoder with
    | some d => .ok d
    | none => .error "AttributeError"
  else if m.decoder_type = "lstm" then
    match m.decoder with
    | some d => .ok d
    | none => .error "AttributeError"
  else if m.decoder_type = "rnn" then
    match m.decoder with
    | some d => .ok d
    | none => .error "AttributeError"
  else .error "UnboundLocalError"

/-- models.py 111-117 (`AugmentedCaptionGenerator.__init__`): the decoder that
a given `decoder` string configures — same widths as `CaptionGenerator`
(all three decoders are built for input width `feats_dim`). -/
def AugmentedCaptionGenerator.decoderFor (feats_dim max_seq_len vocab_size : ℕ)
    (decoder : String) : Option Decoder :=
  if decoder = "linear" then
    some (.linearList feats_dim vocab_size max_seq_len)
  else if decoder = "lstm" then
    some (.lstmDecoder feats_dim max_seq_len)
  else if decoder = "rnn" then
    some (.rnnDecoder feats_dim vocab_size feats_dim 3)
  else none

/-- models.py 220-228 (`FinalModel.__init__`): the decoder that a given
`decoder` string configures.  Only the `'linear'` decoder was widened
"For modified concatenation" to `nn.Linear(feats_dim*2, len(vocab2idx))`;
`'lstm'` and `'rnn'` are still built for input width `feats_dim`. -/
def FinalModel.decoderFor (feats_dim max_seq_len vocab_size : ℕ)
    (decoder : String) : Option Decoder :=
  if decoder = "linear" then
    some (.linearList (feats_dim * 2) vocab_size max_seq_len)
  else if decoder = "lstm" then
    some (.lstmDecoder feats_dim max_seq_len)
  else if decoder = "rnn" then
    some (.rnnDecoder feats_dim vocab_size feats_dim 3)
  else none

/-- models.py 126 (`AugmentedCaptionGenerator.forward`):
`mod_feats = graph_feats + (i_feats * self.img_weight)` — elementwise sum of
the graph embedding and the image embedding scaled by the single learned
scalar `img_weight`, computed per sample row. -/
def AugmentedCaptionGenerator.fuse (graph_feats i_feats : List ℚ)
    (img_weight : ℚ) : List ℚ :=
  graph_feats.zipWith (fun g i => g + i * img_weight) i_feats

/-- models.py 259 (`FinalModel.forward`):
`mod_feats = torch.cat([graph_feats, i_feats], dim=1)` — concatenation of the
graph embedding and the image embedding along the feature dimension, computed
per sample row. -/
def FinalModel.fuse (graph_feats i_feats : List ℚ) : List ℚ :=
  graph_feats ++ i_feats

/-! ### Vocabulary inversion (models.py 67, eval.py 33) -/

/-- A Python dict modelled as its association list in insertion order (keys
pairwise distinct by the dict invariant); `d[k] = v` overwrites in place when
`k` is present and appends otherwise. -/
def dictSet {α β : Type} [DecidableEq α] (d : List (α × β)) (k : α) (v : β) :
    List (α × β) :=
  if d.any (fun p => p.1 == k) then
    d.map (fun p => if p.1 == k then (p.1, v) else p)
  else d ++ [(k, v)]

/-- Python `d[k]` as an `Option` (keys of our dicts are pairwise distinct, so
the first match is the binding). -/
def dictGet {α β : Type} [DecidableEq α] (d : List (α × β)) (k : α) : Option β :=
  (d.find? (fun p => p.1 == k)).map Prod.snd

/-- models.py 67 and eval.py 33:
`idx2vocab = \x7bv: k for k, v in vocab2idx.items()\x7d` — the dict
comprehension iterates the items in insertion order and assigns `v ↦ k`, a
later token with the same id overwriting an earlier one. -/
def invertDict (vocab2idx : List (String × ℕ)) : List (ℕ × String) :=
  vocab2idx.foldl (fun acc p => dictSet acc p.2 p.1) []

/-- Modelled from the spec: the vocabulary construction (`word2idx`, built in
`dataset.py`, which is not among the sources at hand) — "bidirectional mapping
token string ↔ integer id, built once from the training corpus" (spec 3):
distinct tokens receive distinct consecutive ids. -/
def buildVocab (tokens : List String) : List (String × ℕ) :=
  tokens.dedup.enum.map (fun p => (p.2, p.1))

/-! ### The `_loss` methods (models.py 80-82, 136-138, 273-275, 328-330)

Float tensors are modelled over `ℝ`; the `.to(device=device)` moves are
no-ops of the numeric model and the `device` argument is dropped. -/

/-- Modelled from the spec: `_encode_seq_to_arr` is imported from `gnn.py`,
which is not among the sources at hand.  Spec 3 (Caption): "ordered sequence
of token ids, bounded by `max_seq_len`; padded/truncated to a fixed length for
batched loss computation", and spec 7(c): an out-of-vocabulary lookup resolves
to the unknown-token id, never raises — folded into `vocab2idx` being a total
function into the vocabulary.  Position `i` of the encoded row is the id of
token `i` of the caption when `i` is within the caption, and the padding id
otherwise. -/
def encodeSeqToArr {V : ℕ} (vocab2idx : String → Fin V) (padId : Fin V)
    (label : List String) (maxSeqLen : ℕ) : Fin maxSeqLen → Fin V :=
  fun i => if h : (i : ℕ) < label.length then vocab2idx (label.get ⟨i, h⟩) else padId

/-- `nn.CrossEntropyLoss()` on one sample: `-log softmax(logits)[target]`,
i.e. `log (Σ_j exp (logits j)) - logits target`. -/
noncomputable def crossEntropy {V : ℕ} (logits : Fin V → ℝ) (target : Fin V) : ℝ :=
  Real.log (∑ j, Real.exp (logits j)) - logits target

/-- `nn.CrossEntropyLoss()` with its default `reduction='mean'` over the batch
dimension: the mean of the per-sample cross-entropies. -/
noncomputable def crossEntropyMean {B V : ℕ} (out : Fin B → Fin V → ℝ)
    (tgt : Fin B → Fin V) : ℝ :=
  (∑ b, crossEntropy (out b) (tgt b)) / B

/-- models.py 80-82 (`CaptionGenerator._loss`): `batched_label` stacks the
encoded rows of all labels (`torch.vstack`) into a `(B, L)` matrix, and the
result is the sum over positions `i` of `nn.CrossEntropyLoss()(out[i],
batched_label[:, i])`, divided by `max_seq_len`.  `out i b` is row `b` of the
`(B, V)` score tensor `out[i]`. -/
noncomputable def CaptionGenerator._loss {B V L : ℕ}
    (out : Fin L → Fin B → Fin V → ℝ) (labels : Fin B → List String)
    (vocab2idx : String → Fin V) (padId : Fin V) : ℝ :=
  let batched_label : Fin B → Fin L → Fin V :=
    fun b => encodeSeqToArr vocab2idx padId (labels b) L
  (∑ i, crossEntropyMean (out i) (fun b => batched_label b i)) / L

/-- models.py 136-138 (`AugmentedCaptionGenerator._loss`): textually the same
body as `CaptionGenerator._loss`. -/
noncomputable def AugmentedCaptionGenerator._loss {B V L : ℕ}
    (out : Fin L → Fin B → Fin V → ℝ) (labels : Fin B → List String)
    (vocab2idx : String → Fin V) (padId : Fin V) : ℝ :=
  let batched_label : Fin B → Fin L → Fin V :=
    fun b => encodeSeqToArr vocab2idx padId (labels b) L
  (∑ i, crossEntropyMean (out i) (fun b => batched_label b i)) / L

/-- models.py 273-275 (`FinalModel._loss`): textually the same body as
`CaptionGenerator._loss`. -/
noncomputable def FinalModel._loss {B V L : ℕ}
    (out : Fin L → Fin B → Fin V → ℝ) (labels : Fin B → List String)
    (vocab2idx : String → Fin V) (padId : Fin V) : ℝ :=
  let batched_label : Fin B → Fin L → Fin V :=
    fun b => encodeSeqToArr vocab2idx padId (labels b) L
  (∑ i, crossEntropyMean (out i) (fun b => batched_label b i)) / L

/-- models.py 328-330 (`FinetunedModel._loss`): textually the same body as
`CaptionGenerator._loss`. -/
noncomputable def FinetunedModel._loss {B V L : ℕ}
    (out : Fin L → Fin B → Fin V → ℝ) (labels : Fin B → List String)
    (vocab2idx : String → Fin V) (padId : Fin V) : ℝ :=
  let batched_label : Fin B → Fin L → Fin V :=
    fun b => encodeSeqToArr vocab2idx padId (labels b) L
  (∑ i, crossEntropyMean (out i) (fun b => batched_label b i)) / L

/-! ### Result dictionaries (eval.py 37-47 and 160-171) -/

/-- A JSON value as the result files use them: an integer or an array of token
strings. -/
inductive JsonVal where
  | num (n : ℕ)
  | arr (tokens : List String)
deriving DecidableEq

/-- eval.py 44 / 168: the value stored under one sample id,
`\x7b"caption length": len(decoded), "caption ": decoded\x7d`. -/
def resultEntry (decoded : List String) : List (String × JsonVal) :=
  [("caption length", .num decoded.length), ("caption ", .arr decoded)]

/-- eval.py 43-44, the inner loop of `eval_captions` on one batch:
`for i, id in enumerate(ids): result[id] = \x7b...decoded_outputs[i]...\x7d`.
When `decoded_outputs` is shorter than `ids` Python raises `IndexError` and no
result file is written, modelled by `none`. -/
def evalCaptionsBatch (result : List (String × List (String × JsonVal)))
    (ids : List String) (decoded_outputs : List (List String)) :
    Option (List (String × List (String × JsonVal))) :=
  if ids.length ≤ decoded_outputs.length then
    some (ids.enum.foldl
      (fun r p => dictSet r p.2 (resultEntry (decoded_outputs.getD p.1 []))) result)
  else none

/-- eval.py 37-47 (`eval_captions`): the result dict accumulated over all
batches, each batch contributing its `ids` and the per-sample
`decoded_outputs = decode_output(outputs, idx2word)`; the dict is then dumped
to the result file as a JSON object. -/
def eval_captions_result (batches : List (List String × List (List String))) :
    Option (List (String × List (String × JsonVal))) :=
  batches.foldlM (fun result batch => evalCaptionsBatch result batch.1 batch.2) []

/-- eval.py 166-168, the inner loop of `eval_pipeline` on one batch: the batch
decodes one caption `decode_output = [idx2word[idx] for idx in cap_output]`
and stores the same entry under every id of the batch. -/
def evalPipelineBatch (result : List (String × List (String × JsonVal)))
    (ids : List String) (decode_output : List String) :
    List (String × List (String × JsonVal)) :=
  ids.foldl (fun r id => dictSet r id (resultEntry decode_output)) result

/-- eval.py 160-171 (`eval_pipeline`): the result dict accumulated over all
batches, then dumped to the result file as a JSON object. -/
def eval_pipeline_result (batches : List (List String × List String)) :
    List (String × List (String × JsonVal)) :=
  batches.foldl (fun result batch => evalPipelineBatch result batch.1 batch.2) []

/-! ### Helper lemmas -/

/-- The `d >= threshold` test on the argmax of a 2-way block holds exactly when
the block's second component strictly exceeds its first (the argmax is `1` in
that case and `0` otherwise, and `1 ≥ 1/2` while `0 < 1/2`). -/
lemma threshold_argmax2_iff (q : ℚ × ℚ) :
    threshold ≤ ((argmax2 q : ℕ) : ℚ) ↔ q.1 < q.2 := by
  unfold argmax2 threshold
  split
  · rename_i h
    constructor
    · intro _; exact h
    · intro _; norm_num
  · rename_i h
    simp only [Nat.cast_zero]
    constructor
    · intro hc; norm_num at hc
    · intro hc; exact absurd hc h

/-- The filter-then-project step of `FinalModel.indeces` applied to the argmax
decisions coincides with filtering the blocks by strict second-over-first
comparison, at any enumeration offset. -/
lemma indeces_filter_eq (n : ℕ) (l : List (ℚ × ℚ)) :
    (((l.map argmax2).enumFrom n).filter
        (fun p => threshold ≤ (p.2 : ℚ))).map Prod.fst =
      ((l.enumFrom n).filter (fun p => p.2.1 < p.2.2)).map Prod.fst := by
  induction l generalizing n with
  | nil => rfl
  | cons q t ih =>
    simp only [List.map_cons, List.enumFrom_cons, List.filter_cons]
    by_cases h : q.1 < q.2
    · have ht : (decide (threshold ≤ ((argmax2 q : ℕ) : ℚ))) = true := by
        simp [threshold_argmax2_iff, h]
      simp [ht, h, ih]
    · have ht : (decide (threshold ≤ ((argmax2 q : ℕ) : ℚ))) = false := by
        simp [threshold_argmax2_iff, h]
      simp [ht, h, ih]

/-- `FinalModel.indeces` and `FinalModel.tripletLists` produce one entry per
input row. -/
lemma tripletLists_lengths (idx2tripl : ℕ → String) (sig : List (List ℚ)) :
    (FinalModel.indeces sig).length = sig.length ∧
    (FinalModel.tripletLists idx2tripl sig).length = sig.length := by
  constructor
  · simp [FinalModel.indeces]
  · simp [FinalModel.tripletLists, FinalModel.indeces]

/-- `getD` through a `map`, inside the list's range. -/
lemma getD_map_of_lt {α β : Type} (f : α → β) (da : α) (db : β) :
    ∀ (l : List α) (i : ℕ), i < l.length → (l.map f).getD i db = f (l.getD i da) := by
  intro l
  induction l with
  | nil => intro i hi; cases hi
  | cons a t ih =>
    intro i hi
    cases i with
    | zero => rfl
    | succ j =>
      simp only [List.map_cons, List.getD_cons_succ]
      exact ih j (Nat.lt_of_succ_lt_succ hi)

/-! ### The claims -/

/-- C1: in `FinalModel.forward`, a sample whose selected index set is empty has
the placeholder triplet list substituted, so every per-sample triplet list
handed to the graph builder (`tripl2graph`, models.py 254) is non-empty, and a
sample with an empty selection gets exactly
`["('There', 'is', 'no triplet')"]`. -/
theorem C1_placeholder_substitution (idx2tripl : ℕ → String)
    (sig : List (List ℚ)) :
    (∀ l ∈ FinalModel.tripletLists idx2tripl sig, l ≠ []) ∧
    (∀ i : ℕ, i < sig.length → (FinalModel.indeces sig).getD i [] = [] →
      (FinalModel.tripletLists idx2tripl sig).getD i [] = [placeholderTriplet]) := by
  constructor
  · intro l hl
    unfold FinalModel.tripletLists at hl
    rcases List.mem_map.mp hl with ⟨s, _, rfl⟩
    dsimp only
    split
    · simp
    · rename_i hne
      exact hne
  · intro i hi hempty
    have hlen : i < (FinalModel.indeces sig).length := by
      rw [(tripletLists_lengths idx2tripl sig).1]; exact hi
    unfold FinalModel.tripletLists
    rw [getD_map_of_lt _ [] [] (FinalModel.indeces sig) i hlen, hempty]
    rfl

/-- C1 witness: one sample whose single 2-way block votes "absent"
(activations 0.9 vs 0.1), so no class is selected and the sample's triplet
list is exactly the placeholder list, which is non-empty. -/
theorem C1_placeholder_substitution_witness :
    ((0 : ℕ) < ([[(9 : ℚ)/10, 1/10]] : List (List ℚ)).length ∧
      (FinalModel.indeces [[(9 : ℚ)/10, 1/10]]).getD 0 [] = []) ∧
    (FinalModel.tripletLists (fun _ => "t") [[(9 : ℚ)/10, 1/10]]).getD 0 [] =
      [placeholderTriplet] ∧
    [placeholderTriplet] ≠ ([] : List String) := by
  have hind : FinalModel.indeces [[(9 : ℚ)/10, 1/10]] = [[]] := by
    norm_num [FinalModel.indeces, reshapePairs, argmax2, threshold, List.enum,
      List.enumFrom, List.filter]
  have hlists : FinalModel.tripletLists (fun _ => "t") [[(9 : ℚ)/10, 1/10]] =
      [[placeholderTriplet]] := by
    unfold FinalModel.tripletLists
    rw [hind]; rfl
  refine ⟨⟨by norm_num, by rw [hind]; rfl⟩, ?_, ?_⟩
  · exact (C1_placeholder_substitution (fun _ => "t") [[(9 : ℚ)/10, 1/10]]).2 0
      (by norm_num) (by rw [hind]; rfl)
  · exact (C1_placeholder_substitution (fun _ => "t") [[(9 : ℚ)/10, 1/10]]).1
      [placeholderTriplet] (by rw [hlists]; exact List.mem_singleton_self _)

/-- C2 counterexample: a sample with one candidate class whose sigmoid-activated
2-way block is `(0.4, 0.45)` — both activations are valid sigmoid outputs
(strictly between 0 and 1) and both are strictly below the threshold 0.5, yet
`FinalModel.forward` selects the class (the argmax of the block is 1 and the
threshold is compared against that index), while the claim's rule — select
exactly the classes whose sigmoid-activated score meets the threshold 0.5 —
selects nothing. -/
theorem C2_threshold_counterexample :
    (0 < (2 : ℚ)/5 ∧ (2 : ℚ)/5 < 1 ∧ 0 < (9 : ℚ)/20 ∧ (9 : ℚ)/20 < 1) ∧
    ((2 : ℚ)/5 < threshold ∧ (9 : ℚ)/20 < threshold) ∧
    FinalModel.indeces [[(2 : ℚ)/5, 9/20]] = [[0]] ∧
    specSelectedClasses [[(2 : ℚ)/5, 9/20]] = [[]] := by
  refine ⟨⟨by norm_num, by norm_num, by norm_num, by norm_num⟩,
    ⟨by norm_num [threshold], by norm_num [threshold]⟩, ?_, ?_⟩
  · norm_num [FinalModel.indeces, reshapePairs, argmax2, threshold, List.enum,
      List.enumFrom, List.filter]
  · norm_num [specSelectedClasses, reshapePairs, threshold, List.enum,
      List.enumFrom, List.filter]

/-- C2 amended: in `FinalModel.forward` the flat score vector is
sigmoid-activated and reshaped into per-class 2-way blocks, and a candidate
class is selected iff the argmax of its block is 1 — the `>= 0.5` comparison
is applied to the argmax index, not to a sigmoid score — equivalently iff the
block's second activation strictly exceeds its first. -/
theorem C2_selection_is_argmax (sig : List (List ℚ)) :
    FinalModel.indeces sig =
      sig.map (fun row =>
        (((reshapePairs row).enum.filter (fun p => p.2.1 < p.2.2)).map Prod.fst)) := by
  unfold FinalModel.indeces
  simp only [List.map_map]
  apply List.map_congr_left
  intro row _
  exact indeces_filter_eq 0 (reshapePairs row)

/-- C4 counterexample: `FinalModel` with the (default) `'lstm'` decoder and
`feats_dim = 1`: the constructor builds `LSTMDecoder(feats_dim, ...)`, whose
first layer expects input width 1, but `FinalModel.forward` fuses by
concatenation, so with one-dimensional graph and image embeddings the decoder
receives a fused vector of width 2 — the configured input width does not equal
the fused width, refuting "for every decoder type the decoder's expected input
width equals the fused width it receives". -/
theorem C4_width_counterexample :
    FinalModel.decoderFor 1 5 7 "lstm" = some (.lstmDecoder 1 5) ∧
    Decoder.expectedInputWidth (.lstmDecoder 1 5) = 1 ∧
    ([(0 : ℚ)] : List ℚ).length = 1 ∧
    (FinalModel.fuse [(0 : ℚ)] [(3 : ℚ)]).length = 2 ∧
    Decoder.expectedInputWidth (.lstmDecoder 1 5) ≠
      (FinalModel.fuse [(0 : ℚ)] [(3 : ℚ)]).length := by
  refine ⟨rfl, rfl, rfl, rfl, by decide⟩

/-- C4 amended: `AugmentedCaptionGenerator` fuses by `img_weight`-weighted
elementwise sum (fused width `feats_dim`) and every decoder it can configure
expects that width; `FinalModel` fuses by concatenation (fused width
`2*feats_dim`), but only its `'linear'` decoder is constructed with the
doubled input width — its `'lstm'` decoder (the default) is still constructed
for input width `feats_dim`, half the fused width it receives. -/
theorem C4_fusion_widths (feats_dim max_seq_len vocab_size : ℕ)
    (g i : List ℚ) (w : ℚ) (hg : g.length = feats_dim)
    (hi : i.length = feats_dim) :
    (∀ dt d, AugmentedCaptionGenerator.decoderFor feats_dim max_seq_len
        vocab_size dt = some d →
      d.expectedInputWidth = (AugmentedCaptionGenerator.fuse g i w).length) ∧
    (∀ d, FinalModel.decoderFor feats_dim max_seq_len vocab_size "linear" =
        some d →
      d.expectedInputWidth = (FinalModel.fuse g i).length) ∧
    (∀ d, FinalModel.decoderFor feats_dim max_seq_len vocab_size "lstm" =
        some d →
      d.expectedInputWidth = feats_dim) := by
  have hsum : (AugmentedCaptionGenerator.fuse g i w).length = feats_dim := by
    simp [AugmentedCaptionGenerator.fuse, hg, hi]
  have hcat : (FinalModel.fuse g i).length = feats_dim * 2 := by
    simp [FinalModel.fuse, hg, hi]; omega
  refine ⟨?_, ?_, ?_⟩
  · intro dt d h
    unfold AugmentedCaptionGenerator.decoderFor at h
    split at h
    · cases h; simp [Decoder.expectedInputWidth, hsum]
    · split at h
      · cases h; simp [Decoder.expectedInputWidth, hsum]
      · split at h
        · cases h; simp [Decoder.expectedInputWidth, hsum]
        · cases h
  · intro d h
    unfold FinalModel.decoderFor at h
    rw [if_pos rfl] at h
    cases h
    simp [Decoder.expectedInputWidth, hcat]
  · intro d h
    unfold FinalModel.decoderFor at h
    rw [if_neg (by decide), if_pos rfl] at h
    cases h
    simp [Decoder.expectedInputWidth]

/-- C4 amended witness: `feats_dim = 1` with concrete one-dimensional
embeddings; the `'lstm'` decoder `FinalModel` configures keeps input width 1. -/
theorem C4_fusion_widths_witness :
    (([(2 : ℚ)] : List ℚ).length = 1 ∧ ([(3 : ℚ)] : List ℚ).length = 1) ∧
    Decoder.expectedInputWidth (.lstmDecoder 1 5) = 1 :=
  ⟨⟨rfl, rfl⟩,
    (C4_fusion_widths 1 5 7 [(2 : ℚ)] [(3 : ℚ)] 5 rfl rfl).2.2
      (.lstmDecoder 1 5) rfl⟩

/-- C5: `TripletClassifier.forward` and `MultiHeadClassifier.forward` fail with
a shape-assertion error exactly when the input's height (`shape[2]`) or width
(`shape[3]`) differs from the configured `input_size`; with both equal the
forward pass proceeds past the assertions. -/
theorem C5_shape_assertions (t : TripletClassifier) (m : MultiHeadClassifier)
    (x y : Shape4) :
    ((∃ e, t.forward x = .error e) ↔
      (x.height ≠ t.input_size ∨ x.width ≠ t.input_size)) ∧
    ((∃ e, m.forward y = .error e) ↔
      (y.height ≠ m.input_size ∨ y.width ≠ m.input_size)) := by
  constructor
  · unfold TripletClassifier.forward
    by_cases h2 : x.height = t.input_size <;> by_cases h3 : x.width = t.input_size <;>
      simp [h2, h3]
  · unfold MultiHeadClassifier.forward
    by_cases h2 : y.height = m.input_size <;> by_cases h3 : y.width = m.input_size <;>
      simp [h2, h3]

/-- C9: the four `_loss` methods of `CaptionGenerator`,
`AugmentedCaptionGenerator`, `FinalModel` and `FinetunedModel` compute the
identical function of `(out, labels, vocab2idx, max_seq_len)` (the `device`
argument only moves tensors and is a no-op of the numeric model). -/
theorem C9_losses_identical {B V L : ℕ}
    (out : Fin L → Fin B → Fin V → ℝ) (labels : Fin B → List String)
    (vocab2idx : String → Fin V) (padId : Fin V) :
    AugmentedCaptionGenerator._loss out labels vocab2idx padId =
      CaptionGenerator._loss out labels vocab2idx padId ∧
    FinalModel._loss out labels vocab2idx padId =
      CaptionGenerator._loss out labels vocab2idx padId ∧
    FinetunedModel._loss out labels vocab2idx padId =
      CaptionGenerator._loss out labels vocab2idx padId :=
  ⟨rfl, rfl, rfl⟩

/-- C10: for a `decoder` string outside `\x7b'linear', 'lstm', 'rnn'\x7d`,
`CaptionGenerator.__init__` completes (it is a total constructor with no
validation) but assigns no decoder, and the forward dispatch then fails with
`UnboundLocalError` (`decoded_out` is never bound) instead of the invalid
configuration being rejected at construction time. -/
theorem C10_invalid_decoder_fails_late (feats_dim max_seq_len vocab_size : ℕ)
    (d : String) (h1 : d ≠ "linear") (h2 : d ≠ "lstm") (h3 : d ≠ "rnn") :
    (CaptionGenerator.init feats_dim max_seq_len vocab_size d).decoder = none ∧
    (CaptionGenerator.init feats_dim max_seq_len vocab_size d).forwardDispatch =
      .error "UnboundLocalError" := by
  unfold CaptionGenerator.init CaptionGenerator.forwardDispatch
  simp [h1, h2, h3]

/-- C10 witness: the invalid decoder string `"gru"`. -/
theorem C10_invalid_decoder_fails_late_witness :
    ("gru" ≠ "linear" ∧ "gru" ≠ "lstm" ∧ "gru" ≠ "rnn") ∧
    (CaptionGenerator.init 4 5 6 "gru").decoder = none ∧
    (CaptionGenerator.init 4 5 6 "gru").forwardDispatch =
      .error "UnboundLocalError" :=
  ⟨⟨by decide, by decide, by decide⟩,
    C10_invalid_decoder_fails_late 4 5 6 "gru" (by decide) (by decide) (by decide)⟩

/-- One cross-entropy term is non-negative: the log-sum-exp dominates the
target's logit because `exp (logits t)` is one of the positive summands. -/
lemma crossEntropy_nonneg {V : ℕ} (logits : Fin V → ℝ) (t : Fin V) :
    0 ≤ crossEntropy logits t := by
  unfold crossEntropy
  have h1 : Real.exp (logits t) ≤ ∑ j, Real.exp (logits j) :=
    Finset.single_le_sum (f := fun j => Real.exp (logits j))
      (fun j _ => (Real.exp_pos _).le) (Finset.mem_univ t)
  have h2 : logits t ≤ Real.log (∑ j, Real.exp (logits j)) := by
    calc logits t = Real.log (Real.exp (logits t)) := (Real.log_exp _).symm
    _ ≤ Real.log (∑ j, Real.exp (logits j)) :=
        Real.log_le_log (Real.exp_pos _) h1
  linarith

/-- The batch-mean of cross-entropy terms is non-negative. -/
lemma crossEntropyMean_nonneg {B V : ℕ} (out : Fin B → Fin V → ℝ)
    (tgt : Fin B → Fin V) : 0 ≤ crossEntropyMean out tgt :=
  div_nonneg (Finset.sum_nonneg fun _ _ => crossEntropy_nonneg _ _)
    (Nat.cast_nonneg B)

/-- The batch-mean of cross-entropy terms is invariant under a permutation of
the batch applied to scores and targets together. -/
lemma crossEntropyMean_perm {B V : ℕ} (out : Fin B → Fin V → ℝ)
    (tgt : Fin B → Fin V) (σ : Equiv.Perm (Fin B)) :
    crossEntropyMean (fun b => out (σ b)) (fun b => tgt (σ b)) =
      crossEntropyMean out tgt := by
  unfold crossEntropyMean
  congr 1
  exact Equiv.sum_comp σ (fun b => crossEntropy (out b) (tgt b))

/-- C3: `_loss` is the sum over all `max_seq_len` positions `i` of the
cross-entropy between the predicted scores `out[i]` and the encoded
ground-truth token id at position `i` — each position's cross-entropy
mean-reduced over the batch — divided by `max_seq_len`; and every position at
or beyond a caption's length is encoded as the padding id, so padding
positions of captions shorter than `max_seq_len` enter the average exactly
like real tokens (no masking). -/
theorem C3_loss_formula {B V L : ℕ}
    (out : Fin L → Fin B → Fin V → ℝ) (labels : Fin B → List String)
    (vocab2idx : String → Fin V) (padId : Fin V) :
    CaptionGenerator._loss out labels vocab2idx padId =
      (∑ i : Fin L, (∑ b : Fin B, crossEntropy (out i b)
        (encodeSeqToArr vocab2idx padId (labels b) L i)) / B) / L ∧
    ∀ (b : Fin B) (i : Fin L), (labels b).length ≤ (i : ℕ) →
      encodeSeqToArr vocab2idx padId (labels b) L i = padId := by
  constructor
  · rfl
  · intro b i h
    unfold encodeSeqToArr
    rw [dif_neg (Nat.not_lt.mpr h)]

/-- C3 witness: a caption of length 1 with `max_seq_len = 3`; position 2 is a
padding position and is encoded as the padding id, and the loss formula is
instantiated at a concrete batch of one sample. -/
theorem C3_loss_formula_witness :
    (["a"].length ≤ (((2 : Fin 3)) : ℕ)) ∧
    encodeSeqToArr (fun _ => (0 : Fin 1)) 0 ["a"] 3 (2 : Fin 3) = 0 :=
  ⟨by decide,
    (C3_loss_formula (B := 1) (V := 1) (L := 3) (fun _ _ _ => (0 : ℝ))
      (fun _ => ["a"]) (fun _ => 0) 0).2 0 (2 : Fin 3) (by decide)⟩

/-- C7: `_loss` returns a single non-negative real scalar (float
NaN/overflow is outside the real-valued model), and its value is unchanged
when the samples of the batch are permuted — the labels permuted together
with the corresponding rows of every per-position score tensor `out[i]`. -/
theorem C7_loss_nonneg_perm_invariant {B V L : ℕ}
    (out : Fin L → Fin B → Fin V → ℝ) (labels : Fin B → List String)
    (vocab2idx : String → Fin V) (padId : Fin V) (σ : Equiv.Perm (Fin B)) :
    0 ≤ CaptionGenerator._loss out labels vocab2idx padId ∧
    CaptionGenerator._loss (fun i b => out i (σ b)) (fun b => labels (σ b))
        vocab2idx padId =
      CaptionGenerator._loss out labels vocab2idx padId := by
  constructor
  · unfold CaptionGenerator._loss
    exact div_nonneg
      (Finset.sum_nonneg fun i _ => crossEntropyMean_nonneg _ _)
      (Nat.cast_nonneg L)
  · show (∑ i, crossEntropyMean (fun b => out i (σ b))
        (fun b => encodeSeqToArr vocab2idx padId (labels (σ b)) L i)) / L =
      (∑ i, crossEntropyMean (out i)
        (fun b => encodeSeqToArr vocab2idx padId (labels b) L i)) / L
    congr 1
    refine Finset.sum_congr rfl fun i _ => ?_
    exact crossEntropyMean_perm (out i)
      (fun b => encodeSeqToArr vocab2idx padId (labels b) L i) σ

/-- `d[k] = v` on a dict whose keys all differ from `k` appends the binding. -/
lemma dictSet_append_of_not_mem {α β : Type} [DecidableEq α]
    (d : List (α × β)) (k : α) (v : β) (h : ∀ p ∈ d, p.1 ≠ k) :
    dictSet d k v = d ++ [(k, v)] := by
  unfold dictSet
  rw [if_neg]
  simp only [List.any_eq_true, beq_iff_eq, not_exists, not_and]
  intro p hp
  simpa using h p hp

/-- The dict comprehension `\x7bv: k for k, v in l.items()\x7d`, when the ids
`v` are pairwise distinct, never overwrites: starting from an accumulator
whose keys avoid the remaining ids, it appends the swapped pairs in order. -/
lemma invertDict_go (l : List (String × ℕ)) :
    ∀ acc : List (ℕ × String), (l.map Prod.snd).Nodup →
    (∀ p ∈ acc, p.1 ∉ l.map Prod.snd) →
    l.foldl (fun acc p => dictSet acc p.2 p.1) acc =
      acc ++ l.map (fun p => (p.2, p.1)) := by
  induction l with
  | nil => intro acc _ _; simp
  | cons q t ih =>
    intro acc hnd hdisj
    simp only [List.map_cons, List.nodup_cons] at hnd
    simp only [List.foldl_cons, List.map_cons]
    have hset : dictSet acc q.2 q.1 = acc ++ [(q.2, q.1)] := by
      apply dictSet_append_of_not_mem
      intro p hp
      have hnotin := hdisj p hp
      simp only [List.map_cons, List.mem_cons] at hnotin
      exact fun e => hnotin (Or.inl e)
    rw [hset, ih (acc ++ [(q.2, q.1)]) hnd.2 ?_, List.append_assoc]
    · rfl
    · intro p hp
      rcases List.mem_append.mp hp with hin | hone
      · have hnotin := hdisj p hin
        simp only [List.map_cons, List.mem_cons] at hnotin
        exact fun e => hnotin (Or.inr e)
      · simp only [List.mem_singleton] at hone
        subst hone
        exact hnd.1

/-- With pairwise-distinct ids the inversion is exactly the swapped pair
list. -/
lemma invertDict_eq (vocab2idx : List (String × ℕ))
    (h : (vocab2idx.map Prod.snd).Nodup) :
    invertDict vocab2idx = vocab2idx.map (fun p => (p.2, p.1)) := by
  have hgo := invertDict_go vocab2idx [] h (by simp)
  simpa [invertDict] using hgo

/-- Looking an id up in the swapped pair list finds its defining token when
ids are pairwise distinct. -/
lemma dictGet_swap (l : List (String × ℕ)) (hnd : (l.map Prod.snd).Nodup)
    (t : String) (i : ℕ) (hmem : (t, i) ∈ l) :
    dictGet (l.map fun p => (p.2, p.1)) i = some t := by
  induction l with
  | nil => simp at hmem
  | cons q rest ih =>
    simp only [List.map_cons, List.nodup_cons] at hnd
    rcases List.mem_cons.mp hmem with heq | hrest
    · rw [← heq]
      unfold dictGet
      simp
    · have hne : q.2 ≠ i := by
        intro e
        exact hnd.1 (e ▸ List.mem_map.mpr ⟨(t, i), hrest, rfl⟩)
      unfold dictGet at *
      simp only [List.map_cons]
      rw [List.find?_cons_of_neg]
      · exact ih hnd.2 hrest
      · simpa using hne

/-- Modelled from the spec: distinct tokens receive the distinct enumeration
indices `0, 1, 2, ...` as ids, so the id column of `buildVocab` has no
duplicate. -/
lemma buildVocab_ids_nodup (tokens : List String) :
    ((buildVocab tokens).map Prod.snd).Nodup := by
  unfold buildVocab
  have hmm : ((tokens.dedup.enum.map fun p => (p.2, p.1)).map Prod.snd) =
      tokens.dedup.enum.map Prod.fst := by
    rw [List.map_map]; rfl
  rw [hmm, List.enum_map_fst]
  exact List.nodup_range _

/-- C6: for every token of the vocabulary mapping, encoding through
`vocab2idx` and decoding through `idx2vocab = \x7bv: k for k, v in
vocab2idx.items()\x7d` returns the original token, the ids being pairwise
distinct as the spec-modelled vocabulary construction guarantees
(`buildVocab_ids_nodup`). -/
theorem C6_vocab_roundtrip (vocab2idx : List (String × ℕ))
    (hids : (vocab2idx.map Prod.snd).Nodup) :
    ∀ p ∈ vocab2idx, dictGet (invertDict vocab2idx) p.2 = some p.1 := by
  intro p hp
  rw [invertDict_eq vocab2idx hids]
  exact dictGet_swap vocab2idx hids p.1 p.2 (by simpa using hp)

/-- C6 witness: the two-token vocabulary built from the corpus `["a", "b"]`
round-trips the token `"b"` through its id 1. -/
theorem C6_vocab_roundtrip_witness :
    buildVocab ["a", "b"] = [("a", 0), ("b", 1)] ∧
    (([("a", 0), ("b", 1)] : List (String × ℕ)).map Prod.snd).Nodup ∧
    ("b", 1) ∈ ([("a", 0), ("b", 1)] : List (String × ℕ)) ∧
    dictGet (invertDict [("a", 0), ("b", 1)]) 1 = some "b" :=
  ⟨by decide, by decide, by decide,
    C6_vocab_roundtrip [("a", 0), ("b", 1)] (by decide) ("b", 1) (by decide)⟩

/-- A property of the stored values survives a dict assignment whose value has
it. -/
lemma dictSet_values {α β : Type} [DecidableEq α] (P : β → Prop)
    (d : List (α × β)) (k : α) (v : β)
    (hd : ∀ p ∈ d, P p.2) (hv : P v) : ∀ p ∈ dictSet d k v, P p.2 := by
  intro p hp
  unfold dictSet at hp
  split at hp
  · rcases List.mem_map.mp hp with ⟨q, hq, hpe⟩
    by_cases hqk : (q.1 == k) = true
    · rw [← hpe]; simp only [hqk, if_true]; exact hv
    · rw [← hpe]; simp only [hqk]; simp only [Bool.false_eq_true, if_false]
      exact hd q hq
  · rcases List.mem_append.mp hp with hin | hone
    · exact hd p hin
    · simp only [List.mem_singleton] at hone
      subst hone
      exact hv

/-- A property of the stored values survives a fold of dict assignments whose
values all have it. -/
lemma foldl_dictSet_values {α β γ : Type} [DecidableEq α] (P : β → Prop)
    (f : γ → α) (g : γ → β) (xs : List γ) :
    ∀ d : List (α × β), (∀ p ∈ d, P p.2) → (∀ x ∈ xs, P (g x)) →
      ∀ p ∈ xs.foldl (fun r x => dictSet r (f x) (g x)) d, P p.2 := by
  induction xs with
  | nil => intro d hd _ p hp; exact hd p hp
  | cons x t ih =>
    intro d hd hxs p hp
    simp only [List.foldl_cons] at hp
    exact ih (dictSet d (f x) (g x))
      (dictSet_values P d (f x) (g x) hd (hxs x (List.mem_cons_self x t)))
      (fun y hy => hxs y (List.mem_cons_of_mem x hy)) p hp

/-- Every value one `eval_captions` batch stores is a `resultEntry`. -/
lemma evalCaptionsBatch_values
    (result res : List (String × List (String × JsonVal)))
    (ids : List String) (decoded : List (List String))
    (hres : ∀ p ∈ result, ∃ toks, p.2 = resultEntry toks)
    (h : evalCaptionsBatch result ids decoded = some res) :
    ∀ p ∈ res, ∃ toks, p.2 = resultEntry toks := by
  unfold evalCaptionsBatch at h
  split at h
  · have hr : res = ids.enum.foldl
        (fun r p => dictSet r p.2 (resultEntry (decoded.getD p.1 []))) result :=
      (Option.some.injEq _ _ ▸ h).symm
    rw [hr]
    exact foldl_dictSet_values (fun e => ∃ toks, e = resultEntry toks)
      Prod.snd (fun p => resultEntry (decoded.getD p.1 [])) ids.enum result
      hres (fun x _ => ⟨decoded.getD x.1 [], rfl⟩)
  · cases h

/-- Every value the accumulated `eval_captions` result holds is a
`resultEntry`, threading the invariant through the batches. -/
lemma eval_captions_result_values
    (batches : List (List String × List (List String))) :
    ∀ acc res : List (String × List (String × JsonVal)),
      (∀ p ∈ acc, ∃ toks, p.2 = resultEntry toks) →
      batches.foldlM (fun result batch =>
        evalCaptionsBatch result batch.1 batch.2) acc = some res →
      ∀ p ∈ res, ∃ toks, p.2 = resultEntry toks := by
  induction batches with
  | nil =>
    intro acc res hacc h
    simp only [List.foldlM_nil] at h
    cases h
    exact hacc
  | cons b t ih =>
    intro acc res hacc h
    rw [List.foldlM_cons] at h
    cases hb : evalCaptionsBatch acc b.1 b.2 with
    | none => rw [hb] at h; cases h
    | some acc2 =>
      rw [hb] at h
      exact ih acc2 res (evalCaptionsBatch_values acc acc2 b.1 b.2 hacc hb) h

/-- Every value the accumulated `eval_pipeline` result holds is a
`resultEntry`. -/
lemma eval_pipeline_result_values (batches : List (List String × List String)) :
    ∀ acc : List (String × List (String × JsonVal)),
      (∀ p ∈ acc, ∃ toks, p.2 = resultEntry toks) →
      ∀ p ∈ batches.foldl (fun result batch =>
          evalPipelineBatch result batch.1 batch.2) acc,
        ∃ toks, p.2 = resultEntry toks := by
  induction batches with
  | nil => intro acc hacc p hp; exact hacc p hp
  | cons b t ih =>
    intro acc hacc p hp
    simp only [List.foldl_cons] at hp
    refine ih (evalPipelineBatch acc b.1 b.2) ?_ p hp
    unfold evalPipelineBatch
    exact foldl_dictSet_values (fun e => ∃ toks, e = resultEntry toks)
      (fun id => id) (fun _ => resultEntry b.2) b.1 acc hacc (fun x _ => ⟨b.2, rfl⟩)

/-- C8: every result dictionary `eval_captions` or `eval_pipeline` writes is
keyed by sample id, and each id's value has exactly the two keys
`"caption length"` and `"caption "`, where `"caption "` holds the list of
decoded token strings and `"caption length"` is exactly that list's length. -/
theorem C8_result_file_shape
    (batches1 : List (List String × List (List String)))
    (batches2 : List (List String × List String))
    (res : List (String × List (String × JsonVal)))
    (h : eval_captions_result batches1 = some res) :
    (∀ p ∈ res, ∃ toks : List String,
      p.2 = [("caption length", JsonVal.num toks.length),
             ("caption ", JsonVal.arr toks)]) ∧
    (∀ p ∈ eval_pipeline_result batches2, ∃ toks : List String,
      p.2 = [("caption length", JsonVal.num toks.length),
             ("caption ", JsonVal.arr toks)]) := by
  constructor
  · exact eval_captions_result_values batches1 [] res (by simp) h
  · exact eval_pipeline_result_values batches2 [] (by simp)

/-- C8 witness: one batch holding the sample id `"0001"` with the decoded
caption `["a", "b"]`; the written value carries exactly the two documented
keys with `"caption length"` equal to 2, the caption's length. -/
theorem C8_result_file_shape_witness :
    (eval_captions_result [(["0001"], [["a", "b"]])] =
      some [("0001", [("caption length", JsonVal.num 2),
                      ("caption ", JsonVal.arr ["a", "b"])])]) ∧
    (∃ toks : List String,
      [("caption length", JsonVal.num 2), ("caption ", JsonVal.arr ["a", "b"])] =
        [("caption length", JsonVal.num toks.length),
         ("caption ", JsonVal.arr toks)]) := by
  have h : eval_captions_result [(["0001"], [["a", "b"]])] =
      some [("0001", [("caption length", JsonVal.num 2),
                      ("caption ", JsonVal.arr ["a", "b"])])] := by decide
  exact ⟨h, (C8_result_file_shape [(["0001"], [["a", "b"]])] [] _ h).1
    ("0001", [("caption length", JsonVal.num 2),
              ("caption ", JsonVal.arr ["a", "b"])]) (by simp)⟩
